import Mathlib

/-!
Verification development for the HW-PiCollector repository.

The repository collects per-second electrical readings at edge sites
(`collect_homewizard_data.py`), stores them as day-partitioned CSV files, and
synchronises them into a Cassandra store (`sync_homewizard.py`,
`py_to_cassandra.py`).  The definitions below are shallow embeddings of the
corresponding Python functions; timestamps are modelled as integer numbers of
milliseconds, pandas `NaN` cells as `Option` values, and Python exceptions as
`Except` errors.
-/

/-! ## config.py -/

/-- `config.FROM_FIRST_TS`: the look-back horizon, in days. -/
def FROM_FIRST_TS : Int := 4

/-- One day in milliseconds (the unit used for all modelled timestamps). -/
def day_ms : Int := 86400000

/-- The look-back horizon `pd.Timedelta(days=FROM_FIRST_TS)` in milliseconds. -/
def lookback_ms : Int := FROM_FIRST_TS * day_ms

/-- `config.INSERTS_PER_BATCH`: maximum number of insert statements per batch. -/
def INSERTS_PER_BATCH : Nat := 43200

/-- `config.CASSANDRA_KEYSPACE` (with `PROD = False` as in the source). -/
def CASSANDRA_KEYSPACE : String := "test"

/-- `config.TBL_POWER`. -/
def TBL_POWER : String := "power"

/-! ## py_to_cassandra.get_ordering / create_table

`create_table` only builds a CQL string and hands it to the session, so the
embedding is the string builder itself.  A Python `dict` argument is modelled
as an association list (Python dicts preserve insertion order). -/

/-- Embedding of `py_to_cassandra.get_ordering`: starts from the empty string,
appends the clustering clause when the ordering dict is non-empty, appending
`col + " " + type + ","` per entry and replacing the final comma with `)`. -/
def get_ordering (ordering : List (String × String)) : String :=
  if ordering.length > 0 then
    (("WITH CLUSTERING ORDER BY ("
        ++ String.join (ordering.map (fun p => p.1 ++ " " ++ p.2 ++ ","))).dropRight 1)
      ++ ")"
  else ""

/-- Embedding of the query string built by `py_to_cassandra.create_table`:
`"CREATE TABLE IF NOT EXISTS {keyspace}.{table_name} " + "({columns}, " +
"PRIMARY KEY (({primary_keys}" + "{,clustering_keys if any}))" +
"{get_ordering(ordering)});"`. -/
def create_table_query (keyspace table_name : String) (columns primary_keys clustering_keys : List String)
    (ordering : List (String × String)) : String :=
  "CREATE TABLE IF NOT EXISTS " ++ keyspace ++ "." ++ table_name ++ " "
    ++ "(" ++ String.intercalate "," columns ++ ", "
    ++ "PRIMARY KEY ((" ++ String.intercalate "," primary_keys
    ++ (if clustering_keys.length ≠ 0 then "," ++ String.intercalate "," clustering_keys else "")
    ++ "))"
    ++ get_ordering ordering
    ++ ");"

/-! ## py_to_cassandra.get_right_format

The Python function branches on the runtime type of each value; `PyVal`
models the four relevant cases (str, list of str, objects with `isoformat`
such as `pd.Timestamp`, and everything else, e.g. numbers).  The source's
last two branches read the variable `v` — the leftover inner-loop variable of
the most recently processed list value — not the current value `val`; the
embedding threads that variable as an `Option String` and models the
resulting `NameError` (no list processed yet) and `AttributeError` (`v` is a
`str`, which has no `isoformat`) exceptions. -/

/-- A Python exception, as raised by the embedded fragments. -/
inductive PyErr where
  /-- `UnboundLocalError`: a local read before any assignment. -/
  | unboundLocalError
  /-- `NameError`: a name that was never bound. -/
  | nameError
  /-- `AttributeError`: attribute access on an object lacking it. -/
  | attributeError
  deriving DecidableEq

/-- A Python value as discriminated by `get_right_format`. -/
inductive PyVal where
  /-- A `str` value. -/
  | vstr (s : String)
  /-- A `list` of `str` values. -/
  | vlist (elems : List String)
  /-- A value with an `isoformat` method; `iso` is `val.isoformat()`. -/
  | vts (iso : String)
  /-- Any other value (e.g. a number); `plain` is `str(val)`. -/
  | vnum (plain : String)
  deriving DecidableEq

/-- The list branch of `get_right_format`: `_list = "["`, append
`"'" + v + "',"` per element, then `_list[:-1] + "]"`. -/
def format_pylist (elems : List String) : String :=
  (("[" ++ String.join (elems.map (fun e => "'" ++ e ++ "'" ++ ","))).dropRight 1) ++ "]"

/-- The loop of `get_right_format`, threading the Python variable `v`
(the inner-loop variable of the list branch) as it is left behind. -/
def get_right_format_go : Option String → List PyVal → Except PyErr (List String)
  | v, [] => .ok (match v with | _ => [])
  | v, PyVal.vstr s :: rest =>
      (get_right_format_go v rest).map (fun r => ("'" ++ s ++ "'") :: r)
  | v, PyVal.vlist es :: rest =>
      (get_right_format_go (match es.getLast? with | some e => some e | none => v) rest).map
        (fun r => format_pylist es :: r)
  | v, PyVal.vts _ :: rest =>
      -- the source appends `"'" + v.isoformat() + "'"`: `v`, not `val`
      (match v, rest with
       | none, _ => .error .nameError
       | some _, _ => .error .attributeError)
  | v, PyVal.vnum _ :: rest =>
      -- the source appends `str(v)`: `v`, not `val`
      (match v with
       | none => .error .nameError
       | some s => (get_right_format_go (some s) rest).map (fun r => s :: r))

/-- Embedding of `py_to_cassandra.get_right_format`: the loop starts with the
name `v` unbound. -/
def get_right_format (values : List PyVal) : Except PyErr (List String) :=
  get_right_format_go none values

/-! ## sync_homewizard.check_last_ts

Timestamps handled by the watermark logic are non-negative (epoch-based), so
they are modelled as natural numbers of milliseconds. -/

/-- `pd.Timestamp.floor('s')` on a millisecond timestamp. -/
def floor_s (t : Nat) : Nat := t / 1000 * 1000

/-- Embedding of `sync_homewizard.check_last_ts` as the stored-watermark
transformer: `stored = none` models a falsy `last_ts` (the insert branch);
otherwise the row is updated to `new_ts.floor('s')` only when
`new_ts > last_ts`. -/
def check_last_ts (new_ts : Nat) (stored : Option Nat) : Option Nat :=
  match stored with
  | some last => if last < new_ts then some (floor_s new_ts) else some last
  | none => some (floor_s new_ts)

/-! ## sync_homewizard.process_home (range selection) -/

/-- Embedding of the range selection in `sync_homewizard.process_home` for the
non-`all_days` path.  Returns `(start_date, end_date, classic_sync)`.
`sd`/`ed` are the caller-supplied dates (`None` modelled as `none`); when
`sd` is `none` inside the explicit branch, `ed` is necessarily `some` (the
Python `or` expression only evaluates `end_date - Timedelta(...)` then), so
`ed.getD now` is only a total-function completion of dead code. -/
def select_range (sd ed : Option Int) (last_ts now : Int) : Int × Int × Bool :=
  if sd.isSome || ed.isSome then
    (sd.getD (ed.getD now - lookback_ms), ed.getD now, false)
  else
    (if now - last_ts < lookback_ms then last_ts else now - lookback_ms, now, true)

/-! ## sync_homewizard.sync_files

A remote day file is modelled as `Option (List RawRow)`: `none` when
`sftp.stat` raises `FileNotFoundError`.  In that case the source logs a
warning and then executes `return df` with the local `df` never assigned,
which raises `UnboundLocalError`. -/

/-- A row of a fetched day-file CSV (only the fields the claims need). -/
structure RawRow where
  /-- The row's timestamp, in milliseconds. -/
  timestamp : Int
  /-- The `active_power_w` cell; `none` models `NaN`. -/
  active_power_w : Option ℚ
  deriving DecidableEq

/-- A day-file row after `sync_files` adds the `home_id` and `day` columns. -/
structure SyncedRow where
  /-- The row's timestamp, in milliseconds. -/
  timestamp : Int
  /-- The `active_power_w` cell; `none` models `NaN`. -/
  active_power_w : Option ℚ
  /-- The `home_id` column added by `sync_files`. -/
  home_id : String
  /-- The `day` column added by `sync_files`. -/
  day : String
  deriving DecidableEq

/-- Embedding of `sync_homewizard.sync_files`.  `file?` is the remote day
file (`none` when absent); `date` is the loop date passed by `sync_dates`
(in milliseconds).  On success the returned rows are exactly the data frame
handed to `ptc.batch_insert_query` and returned to `sync_dates`. -/
def sync_files (file? : Option (List RawRow)) (home_id day_str : String) (date : Int)
    (classic_sync : Bool) : Except PyErr (List SyncedRow) :=
  match file? with
  | some rows =>
      let df := rows.map (fun r =>
        { timestamp := r.timestamp, active_power_w := r.active_power_w,
          home_id := home_id, day := day_str : SyncedRow })
      .ok (if classic_sync then df.filter (fun r => date ≤ r.timestamp) else df)
  | none =>
      -- `except FileNotFoundError:` logs, then `return df` reads the never
      -- assigned local `df` and raises.
      .error .unboundLocalError

/-! ## py_to_cassandra.batch_insert_query

The loop appends one insert statement per row, executing a batch each time
`(i + 1) % INSERTS_PER_BATCH == 0` and a final batch for any remainder.  The
per-row statement construction is abstracted as `f`; the result is the list
of executed batches, in execution order. -/

/-- The loop of `batch_insert_query`: `i` is the enumeration index, `queries`
the statements accumulated since the last flush. -/
def batchGo (N : Nat) (f : α → β) : Nat → List β → List α → List (List β)
  | _, queries, [] => if queries.isEmpty then [] else [queries]
  | i, queries, r :: rest =>
      let q := queries ++ [f r]
      if (i + 1) % N = 0 then q :: batchGo N f (i + 1) [] rest
      else batchGo N f (i + 1) q rest

/-- Embedding of `py_to_cassandra.batch_insert_query`: the sequence of
executed batches for data-frame rows `rows`, with `N` statements per batch
(`INSERTS_PER_BATCH` in the source) and `f` building one insert statement per
row (`get_insert_query` in the source). -/
def batch_insert_query (N : Nat) (f : α → β) (rows : List α) : List (List β) :=
  batchGo N f 0 [] rows

/-! ## sync_homewizard.sync_dates: power derivation

For each day, `sync_dates` builds `final_df` from the p1 frame (one row per
p1 row: `p_cons = active_power_w`, `p_prod = 0`, `p_tot = active_power_w`)
and, for a site with pv, overwrites `p_prod` with `pv["active_power_w"] * -1`
and `p_tot` with `p_cons + p_prod`.  Both assignments align the pv series to
`final_df` by the pandas row label (the positional index produced by
`read_csv`), so rows are modelled with an explicit `label`; a label absent
from the pv frame or a `NaN` cell yields `NaN` (`none`), and `NaN`
propagates through negation and addition. -/

/-- One row of a day-file series as a data frame row: its pandas label, its
timestamp (milliseconds) and its `active_power_w` cell (`none` = `NaN`). -/
structure SRow where
  /-- The pandas row label (positional index from `read_csv`). -/
  label : Nat
  /-- The row's timestamp, in milliseconds. -/
  ts : Int
  /-- The `active_power_w` cell; `none` models `NaN`. -/
  active_power_w : Option ℚ
  deriving DecidableEq

/-- One row of the derived `final_df` inserted into the power table. -/
structure PowerRow where
  /-- The pandas row label, inherited from the p1 frame. -/
  label : Nat
  /-- The `timestamp` column, copied from the p1 frame. -/
  ts : Int
  /-- The `p_cons` column. -/
  p_cons : Option ℚ
  /-- The `p_prod` column. -/
  p_prod : Option ℚ
  /-- The `p_tot` column. -/
  p_tot : Option ℚ
  deriving DecidableEq

/-- Pandas addition of two possibly-`NaN` cells: `NaN` absorbs. -/
def optAdd : Option ℚ → Option ℚ → Option ℚ
  | some a, some b => some (a + b)
  | _, _ => none

/-- Pandas `* -1` on a possibly-`NaN` cell. -/
def optNeg (v : Option ℚ) : Option ℚ := v.map (fun q => -q)

/-- The pv `active_power_w` cell aligned to pandas label `l`: `none` when the
pv frame has no row with that label or the cell is `NaN`. -/
def pvAt (pv : List SRow) (l : Nat) : Option ℚ :=
  (pv.find? (fun x => x.label == l)).bind (fun x => x.active_power_w)

/-- Embedding of the per-day power derivation in `sync_homewizard.sync_dates`
(lines 287-300): first the `final_df` construction from the p1 frame, then,
when `has_pv`, the column overwrites from the pv frame. -/
def sync_day_power (has_pv : Bool) (p1 pv : List SRow) : List PowerRow :=
  let base := p1.map (fun r =>
    { label := r.label, ts := r.ts, p_cons := r.active_power_w,
      p_prod := some 0, p_tot := r.active_power_w : PowerRow })
  if has_pv then
    base.map (fun pr =>
      let pprod := optNeg (pvAt pv pr.label)
      { pr with p_prod := pprod, p_tot := optAdd pr.p_cons pprod })
  else base

/-- Modelled from the spec's words for the comparison in C5/C6: the power
derivation with the production series aligned **by timestamp** ("production =
the negated active-power field of the production series aligned by
timestamp"). -/
def power_ts_aligned_spec (has_pv : Bool) (p1 pv : List SRow) : List PowerRow :=
  p1.map (fun r =>
    if has_pv then
      let pprod := optNeg ((pv.find? (fun x => x.ts == r.ts)).bind (fun x => x.active_power_w))
      { label := r.label, ts := r.ts, p_cons := r.active_power_w,
        p_prod := pprod, p_tot := optAdd r.active_power_w pprod }
    else
      { label := r.label, ts := r.ts, p_cons := r.active_power_w,
        p_prod := some 0, p_tot := r.active_power_w })

/-- The amended specification of the derivation: one record per p1 row, with
the production series aligned by pandas row label. -/
def power_label_aligned_spec (has_pv : Bool) (p1 pv : List SRow) : List PowerRow :=
  p1.map (fun r =>
    if has_pv then
      let pprod := optNeg (pvAt pv r.label)
      { label := r.label, ts := r.ts, p_cons := r.active_power_w,
        p_prod := pprod, p_tot := optAdd r.active_power_w pprod }
    else
      { label := r.label, ts := r.ts, p_cons := r.active_power_w,
        p_prod := some 0, p_tot := r.active_power_w })

/-! ## collect_homewizard_data.save_to_csv (the resampler)

`save_to_csv` sets the timestamp index, reindexes onto the 500 ms grid
`pd.date_range(min, max, freq='500ms')` — keeping exactly the readings whose
timestamp is a grid point and inserting `NaN` rows elsewhere — and then takes
`resample('s').mean()`, which emits one row per whole second from the floor
second of the first grid point to the floor second of the last, the mean
ignoring `NaN`.  Timestamps are natural numbers of milliseconds. -/

/-- One buffered reading handed to `save_to_csv` (a single numeric channel
suffices for the claims). -/
structure Reading where
  /-- The reading's timestamp, in milliseconds. -/
  ts : Nat
  /-- The reading's value. -/
  val : ℚ
  deriving DecidableEq

/-- The minimum timestamp of a window of readings (`data_to_save.index.min()`). -/
def minTs : List Reading → Nat
  | [] => 0
  | r :: rest => rest.foldl (fun a x => min a x.ts) r.ts

/-- The maximum timestamp of a window of readings (`data_to_save.index.max()`). -/
def maxTs : List Reading → Nat
  | [] => 0
  | r :: rest => rest.foldl (fun a x => max a x.ts) r.ts

/-- The mean of a list of rationals. -/
def listMean (xs : List ℚ) : ℚ := xs.sum / (xs.length : ℚ)

/-- Embedding of the resampling pipeline of
`collect_homewizard_data.save_to_csv`: reindex onto the 500 ms grid from the
minimum to the maximum observed timestamp, then one output row per whole
second with the `NaN`-skipping mean of the grid cells in that second. -/
def save_to_csv_resample (rs : List Reading) : List (Nat × Option ℚ) :=
  match rs with
  | [] => []
  | r :: rest =>
      let t0 := minTs (r :: rest)
      let t1 := maxTs (r :: rest)
      let K := (t1 - t0) / 500
      let grid : List Nat := (List.range (K + 1)).map (fun k => t0 + 500 * k)
      let reindexed : List (Nat × Option ℚ) :=
        grid.map (fun g => (g, ((r :: rest).find? (fun x => x.ts == g)).map (fun x => x.val)))
      let s0 := t0 / 1000
      let s1 := (t0 + 500 * K) / 1000
      (List.range (s1 - s0 + 1)).map (fun j =>
        let s := s0 + j
        let vals := (reindexed.filter (fun p => p.1 / 1000 == s)).filterMap (fun p => p.2)
        (s, if vals.isEmpty then none else some (listMean vals)))

/-- Modelled from the spec's words for the comparison in C7: the value of a
whole second is the mean of all readings whose timestamp rounds (floors) into
that second, and null when there is no such reading. -/
def secondMean (rs : List Reading) (s : Nat) : Option ℚ :=
  let xs := (rs.filter (fun x => x.ts / 1000 == s)).map (fun x => x.val)
  if xs.isEmpty then none else some (listMean xs)

/-! ## Helper lemmas -/

/-- Pandas addition absorbs a `NaN` on the right. -/
theorem optAdd_none_right (a : Option ℚ) : optAdd a none = none := by
  cases a <;> rfl

/-- The two-step construction of `final_df` in `sync_dates` (build the
consumption-only frame, then overwrite the production columns) coincides with
the direct label-aligned derivation. -/
theorem sync_day_power_eq_label_spec (has_pv : Bool) (p1 pv : List SRow) :
    sync_day_power has_pv p1 pv = power_label_aligned_spec has_pv p1 pv := by
  cases has_pv
  · rfl
  · simp only [sync_day_power, power_label_aligned_spec, List.map_map]
    rfl

/-! ## Claims -/

/-- C1: for every site and sync pass, the stored watermark after the pass is
at least the stored watermark before it: `check_last_ts`, called by
`sync_dates` with the requested range's end, leaves the stored row at the
later of the new timestamp and the previously stored one and never regresses
it.  (Every range end handed to `check_last_ts` by a sync pass is a whole
second: `sync_data` floors `now`, and explicit or all-days bounds are
midnights.) -/
theorem c1_watermark_never_regresses (w new_ts : Nat) (hn : new_ts % 1000 = 0) :
    check_last_ts new_ts (some w) = some (max w new_ts) ∧ w ≤ max w new_ts := by
  have hfloor : floor_s new_ts = new_ts := by
    unfold floor_s
    exact Nat.div_mul_cancel (Nat.dvd_of_mod_eq_zero hn)
  constructor
  · simp only [check_last_ts, hfloor]
    split
    · next hlt => rw [Nat.max_eq_right (Nat.le_of_lt hlt)]
    · next hge => rw [Nat.max_eq_left (Nat.le_of_not_lt hge)]
  · exact Nat.le_max_left _ _

/-- Witness for C1 at watermark 2000 ms and range end 5000 ms. -/
theorem c1_watermark_never_regresses_witness :
    5000 % 1000 = 0 ∧
      (check_last_ts 5000 (some 2000) = some (max 2000 5000) ∧ 2000 ≤ max 2000 5000) :=
  ⟨rfl, c1_watermark_never_regresses 2000 5000 rfl⟩

/-- C2 (code bug): when the primary day file is absent on the remote site,
`sync_files` does not return normally.  The `except FileNotFoundError`
handler logs the missing file but then falls through to `return df` with the
local `df` never assigned, so the call raises `UnboundLocalError`, which
propagates through `sync_dates` and aborts the whole site's pass instead of
skipping the single day. -/
theorem c2_missing_day_file_raises :
    sync_files none "CDB001" "2024-1-1" 0 false = .error .unboundLocalError := rfl

/-- C3: in incremental mode (no `--all`, no caller-supplied start or end),
`process_home` selects the range `[max(watermark, now - lookback), now]`
with `classic_sync = True`: the start is the watermark itself exactly when
`now - last_ts < pd.Timedelta(days=FROM_FIRST_TS)`. -/
theorem c3_incremental_range_is_max (last_ts now : Int) :
    select_range none none last_ts now = (max last_ts (now - lookback_ms), now, true) := by
  have hmax : (if now - last_ts < lookback_ms then last_ts else now - lookback_ms) =
      max last_ts (now - lookback_ms) := by
    rcases le_or_lt lookback_ms (now - last_ts) with hge | hlt
    · rw [if_neg (not_lt.mpr hge), max_eq_right (by omega)]
    · rw [if_pos hlt, max_eq_left (by omega)]
  simp [select_range, hmax]

/-- C4: in an incremental (classic) pass whose range starts at `start`, the
day processed at offset `k` filters the fetched rows to timestamps at or
after `start + k` days before loading, so no fetched row with a timestamp
before the incremental range start is ever loaded — a second pass over a
straddled day cannot re-insert the seconds below the previous pass's
boundary. -/
theorem c4_classic_sync_loads_no_row_before_start (rows : List RawRow)
    (home_id day_str : String) (start : Int) (k : Nat) (df : List SyncedRow)
    (h : sync_files (some rows) home_id day_str (start + (k : Int) * day_ms) true = .ok df) :
    ∀ r ∈ df, start ≤ r.timestamp := by
  intro r hr
  have hday : (0 : Int) ≤ (k : Int) * day_ms :=
    mul_nonneg (Int.natCast_nonneg k) (by norm_num [day_ms])
  simp only [sync_files, if_true, Except.ok.injEq] at h
  rw [← h] at hr
  have := (List.mem_filter.mp hr).2
  have hle : start + (k : Int) * day_ms ≤ r.timestamp := by
    exact of_decide_eq_true this
  linarith

/-- Witness for C4: day offset 0 of a pass starting at 50 ms; the fetched row
at 40 ms is filtered out and the surviving row at 60 ms is at or after the
start. -/
theorem c4_classic_sync_loads_no_row_before_start_witness :
    (50 : Int) ≤
      ({ timestamp := 60, active_power_w := none, home_id := "h", day := "d" } :
        SyncedRow).timestamp :=
  c4_classic_sync_loads_no_row_before_start [⟨40, none⟩, ⟨60, none⟩] "h" "d" 50 0
    [{ timestamp := 60, active_power_w := none, home_id := "h", day := "d" }] rfl
    { timestamp := 60, active_power_w := none, home_id := "h", day := "d" } (by decide)

/-- C5 (counterexample): the derivation aligns the production series to the
primary series by pandas row label, not by timestamp.  With a primary frame
whose rows have timestamps 10 and 11 and a production frame whose single row
(label 0) has timestamp 11, the code's production column is
`[-3, null]` — pairing the pv reading at timestamp 11 with the primary row at
timestamp 10 — whereas timestamp alignment demands `[null, -3]`. -/
theorem c5_not_timestamp_aligned_cex :
    (sync_day_power true [⟨0, 10, some 5⟩, ⟨1, 11, some 7⟩] [⟨0, 11, some 3⟩]).map
        (fun pr => pr.p_prod) = [some (-3), none] ∧
    (power_ts_aligned_spec true [⟨0, 10, some 5⟩, ⟨1, 11, some 7⟩] [⟨0, 11, some 3⟩]).map
        (fun pr => pr.p_prod) = [none, some (-3)] ∧
    ([some (-3 : ℚ), none] ≠ [none, some (-3 : ℚ)]) :=
  ⟨rfl, rfl, by simp⟩

/-- C5 (amended): for every (site, day), the derivation produces one record
per primary row with consumption equal to the primary `active_power_w`,
production `0` and net equal to consumption for a non-production site, and
otherwise production equal to the negated `active_power_w` of the production
series aligned by pandas row label (not by timestamp) and net equal to
consumption plus the signed production, with `NaN` propagation. -/
theorem c5_power_derivation_label_aligned (has_pv : Bool) (p1 pv : List SRow) :
    sync_day_power has_pv p1 pv = power_label_aligned_spec has_pv p1 pv :=
  sync_day_power_eq_label_spec has_pv p1 pv

/-- C6 (counterexample): a second of the primary series for which the
production series has no value does not get a null production.  With a
primary row at timestamp 10 and a production row (same label 0) at timestamp
20, the production series has no value at timestamp 10, yet the derived
record at that second has production `-3` and net `2`, both non-null. -/
theorem c6_timestamp_gap_not_null_cex :
    (([⟨0, 20, some 3⟩] : List SRow).find? (fun x => x.ts == (10 : Int)) = none) ∧
    sync_day_power true [⟨0, 10, some 5⟩] [⟨0, 20, some 3⟩] =
      [⟨0, 10, some 5, some (-3), some 2⟩] ∧
    (some (-3 : ℚ) ≠ (none : Option ℚ)) := by
  refine ⟨rfl, ?_, by simp⟩
  norm_num [sync_day_power, optAdd, optNeg, pvAt]

/-- C6 (amended): for a production-capable site, whenever the production
series has no value at the pandas row label of a primary row (shorter frame,
missing label, or `NaN` cell), the derived record at that row has null
production and null net — zero is never substituted — and whenever the
production value `v` at the label is present and consumption `c` is present,
the net is `c - v`. -/
theorem c6_null_production_propagates (p1 pv : List SRow) (i : Nat) (r : SRow)
    (h : p1[i]? = some r) :
    ∃ pr, (sync_day_power true p1 pv)[i]? = some pr ∧
      pr.p_cons = r.active_power_w ∧
      (pvAt pv r.label = none → pr.p_prod = none ∧ pr.p_tot = none) ∧
      (∀ v c, pvAt pv r.label = some v → r.active_power_w = some c →
        pr.p_prod = some (-v) ∧ pr.p_tot = some (c - v)) := by
  rw [sync_day_power_eq_label_spec]
  unfold power_label_aligned_spec
  rw [List.getElem?_map, h, Option.map_some']
  refine ⟨_, rfl, rfl, ?_, ?_⟩
  · intro hnone
    simp only [if_true, hnone]
    exact ⟨rfl, optAdd_none_right _⟩
  · intro v c hv hc
    simp only [if_true, hv, hc]
    refine ⟨rfl, ?_⟩
    show optAdd (some c) (some (-v)) = some (c - v)
    simp [optAdd, sub_eq_add_neg]

/-- Witness for C6 at a primary row whose label has a production row but
whose timestamp does not appear in the production series. -/
theorem c6_null_production_propagates_witness :
    ∃ pr, (sync_day_power true [⟨0, 10, some 5⟩] [⟨0, 20, some 3⟩])[0]? = some pr ∧
      pr.p_cons = some 5 ∧
      (pvAt [⟨0, 20, some 3⟩] 0 = none → pr.p_prod = none ∧ pr.p_tot = none) ∧
      (∀ v c, pvAt [⟨0, 20, some 3⟩] 0 = some v → some (5 : ℚ) = some c →
        pr.p_prod = some (-v) ∧ pr.p_tot = some (c - v)) :=
  c6_null_production_propagates [⟨0, 10, some 5⟩] [⟨0, 20, some 3⟩] 0 ⟨0, 10, some 5⟩ rfl

/-- C8 (code bug): the DDL generated by `create_table` for the power table
(and identically for the raw tables) does not make `home_id` the partition
key with `day, timestamp` as clustering columns.  It emits
`PRIMARY KEY ((home_id,day,timestamp))` — all three columns inside the
partition-key parentheses — and places the `WITH CLUSTERING ORDER BY` clause
inside the table's column parentheses, which is not the documented
`(<columns>, PRIMARY KEY (<pk><ck>)) <ordering>` shape. -/
theorem c8_create_table_power_query_malformed :
    create_table_query CASSANDRA_KEYSPACE TBL_POWER
        ["home_id TEXT", "day TEXT", "timestamp TIMESTAMP", "p_cons FLOAT", "p_prod FLOAT",
          "p_tot FLOAT"]
        ["home_id"] ["day", "timestamp"] [("day", "ASC"), ("timestamp", "ASC")] =
      "CREATE TABLE IF NOT EXISTS test.power (home_id TEXT,day TEXT,timestamp TIMESTAMP,p_cons FLOAT,p_prod FLOAT,p_tot FLOAT, PRIMARY KEY ((home_id,day,timestamp))WITH CLUSTERING ORDER BY (day ASC,timestamp ASC));" ∧
    "CREATE TABLE IF NOT EXISTS test.power (home_id TEXT,day TEXT,timestamp TIMESTAMP,p_cons FLOAT,p_prod FLOAT,p_tot FLOAT, PRIMARY KEY ((home_id,day,timestamp))WITH CLUSTERING ORDER BY (day ASC,timestamp ASC));" ≠
      "CREATE TABLE IF NOT EXISTS test.power (home_id TEXT,day TEXT,timestamp TIMESTAMP,p_cons FLOAT,p_prod FLOAT,p_tot FLOAT, PRIMARY KEY ((home_id), day, timestamp) WITH CLUSTERING ORDER BY (day ASC, timestamp ASC));" :=
  ⟨rfl, by decide⟩

/-- C10 (code bug): the last two branches of `get_right_format` format the
stale inner-loop variable `v` of the most recently processed list value
instead of the current value `val`: a number after a list is rendered as the
list's last element, a number with no preceding list raises `NameError`, and
a timestamp after a list raises `AttributeError` (a `str` has no
`isoformat`), so the i-th output is not the formatting of the i-th input. -/
theorem c10_get_right_format_uses_stale_variable :
    get_right_format [PyVal.vlist ["a"], PyVal.vnum "3"] = .ok ["['a']", "a"] ∧
    get_right_format [PyVal.vnum "3"] = .error .nameError ∧
    get_right_format [PyVal.vlist ["a"], PyVal.vts "2024-01-01T00:00:00"] =
      .error .attributeError ∧
    ("a" : String) ≠ "3" :=
  ⟨rfl, rfl, rfl, by decide⟩

/-- Stepping the enumeration index once under the modulus. -/
theorem succ_mod_eq (N i : Nat) : (i + 1) % N = (i % N + 1) % N := by
  conv_lhs => rw [← Nat.mod_add_div i N]
  rw [Nat.add_right_comm, Nat.add_mul_mod_self_left]

/-- Loop invariant of `batchGo`: starting with `queries.length = i % N`
statements already accumulated, the emitted batches concatenate to the
remaining statements, number `⌈total/N⌉`, are bounded by `N`, and the last
batch carries the remainder. -/
theorem batchGo_spec {α : Type u_1} {β : Type u_2} (N : Nat) (f : α → β) (hN : 0 < N) :
    ∀ (rest : List α) (i : Nat) (queries : List β), queries.length = i % N →
      (batchGo N f i queries rest).flatten = queries ++ rest.map f ∧
      (batchGo N f i queries rest).length = (queries.length + rest.length + N - 1) / N ∧
      (∀ b ∈ batchGo N f i queries rest, b.length ≤ N) ∧
      ((queries.length + rest.length) % N ≠ 0 →
        ∃ lb, (batchGo N f i queries rest).getLast? = some lb ∧
          lb.length = (queries.length + rest.length) % N) := by
  intro rest
  induction rest with
  | nil =>
    intro i queries hq
    have hqlt : queries.length < N := hq ▸ Nat.mod_lt i hN
    by_cases hqe : queries = []
    · subst hqe
      simp [batchGo, Nat.div_eq_of_lt (show N - 1 < N by omega)]
    · have hne : queries.isEmpty = false := by
        simp [List.isEmpty_iff, hqe]
      have hpos : 0 < queries.length := List.length_pos.mpr hqe
      simp only [batchGo, hne, Bool.false_eq_true, if_false]
      refine ⟨by simp, ?_, ?_, ?_⟩
      · have h1 : (queries.length + 0 + N - 1) / N = 1 :=
          Nat.div_eq_of_lt_le (by omega) (by omega)
        simp only [List.length_cons, List.length_nil]
        rw [h1]
      · intro b hb
        rw [List.mem_singleton.mp hb]
        omega
      · intro hmod
        exact ⟨queries, rfl, by
          simp only [List.length_nil, Nat.add_zero, Nat.mod_eq_of_lt hqlt]⟩
  | cons r rest ih =>
    intro i queries hq
    have hqlt : queries.length < N := hq ▸ Nat.mod_lt i hN
    simp only [batchGo]
    by_cases hflush : (i + 1) % N = 0
    · rw [if_pos hflush]
      have hqN : queries.length + 1 = N := by
        have h2 : (i + 1) % N = (queries.length + 1) % N := by rw [succ_mod_eq, hq]
        by_contra hne
        have hlt : queries.length + 1 < N := by omega
        rw [h2, Nat.mod_eq_of_lt hlt] at hflush
        omega
      obtain ⟨ihj, ihl, ihb, ihlast⟩ := ih (i + 1) [] (by simp [hflush])
      refine ⟨?_, ?_, ?_, ?_⟩
      · simp [ihj]
      · simp only [List.length_cons, ihl, List.length_nil, Nat.zero_add]
        have hnum : queries.length + (rest.length + 1) + N - 1 = rest.length + N - 1 + N := by
          omega
        rw [hnum, Nat.add_div_right _ hN]
      · intro b hb
        rcases List.mem_cons.mp hb with hb | hb
        · rw [hb]
          simp only [List.length_append, List.length_cons, List.length_nil]
          omega
        · exact ihb b hb
      · intro hmod
        simp only [List.length_cons] at hmod ⊢
        have htot : (queries.length + (rest.length + 1)) % N = (rest.length + 0) % N := by
          simp only [Nat.add_zero]
          have : queries.length + (rest.length + 1) = rest.length + N := by omega
          rw [this, Nat.add_mod_right]
        rw [htot] at hmod
        obtain ⟨lb, hlb, hlen⟩ := ihlast (by simpa using hmod)
        refine ⟨lb, List.mem_getLast?_cons hlb, ?_⟩
        rw [htot]
        simpa using hlen
    · rw [if_neg hflush]
      have hstep : (i + 1) % N = queries.length + 1 := by
        rcases Nat.lt_or_ge (queries.length + 1) N with hlt | hge
        · rw [succ_mod_eq, ← hq]
          exact Nat.mod_eq_of_lt hlt
        · exfalso
          apply hflush
          have hqN1 : queries.length + 1 = N := by omega
          rw [succ_mod_eq, ← hq, hqN1, Nat.mod_self]
      obtain ⟨ihj, ihl, ihb, ihlast⟩ := ih (i + 1) (queries ++ [f r])
        (by simp only [List.length_append, List.length_cons, List.length_nil]; omega)
      refine ⟨?_, ?_, ?_, ?_⟩
      · rw [ihj]
        simp
      · rw [ihl]
        congr 1
        simp only [List.length_append, List.length_cons, List.length_nil]
        omega
      · exact ihb
      · intro hmod
        simp only [List.length_cons] at hmod ⊢
        have hshape : (queries ++ [f r]).length + rest.length =
            queries.length + (rest.length + 1) := by
          simp only [List.length_append, List.length_cons, List.length_nil]
          omega
        obtain ⟨lb, h1, h2⟩ := ihlast (by rw [hshape]; exact hmod)
        exact ⟨lb, h1, by rw [← hshape]; exact h2⟩

/-- C9: for every sequence of rows and every positive maximum batch size `N`
(`INSERTS_PER_BATCH` in the source), `batch_insert_query` issues the rows'
insert statements as `⌈M/N⌉` batches (computed as `(M + N - 1) / N`) in
order, each of at most `N` statements, the final partial batch holding the
`M mod N` remainder when it is non-zero, and concatenating the batches gives
back every statement exactly once in the original order. -/
theorem c9_batch_insert_splits {α : Type u_1} {β : Type u_2} (N : Nat) (hN : 0 < N)
    (f : α → β) (rows : List α) :
    (batch_insert_query N f rows).flatten = rows.map f ∧
    (batch_insert_query N f rows).length = (rows.length + N - 1) / N ∧
    (∀ b ∈ batch_insert_query N f rows, b.length ≤ N) ∧
    (rows.length % N ≠ 0 →
      ∃ lb, (batch_insert_query N f rows).getLast? = some lb ∧
        lb.length = rows.length % N) := by
  have h := batchGo_spec N f hN rows 0 [] (by simp)
  simpa [batch_insert_query] using h

/-- Witness for C9: three rows with batch size two give two batches. -/
theorem c9_batch_insert_splits_witness :
    0 < 2 ∧
      ((batch_insert_query 2 (fun n : Nat => n) [10, 20, 30]).flatten =
          [10, 20, 30].map (fun n => n) ∧
        (batch_insert_query 2 (fun n : Nat => n) [10, 20, 30]).length =
          ([10, 20, 30].length + 2 - 1) / 2 ∧
        (∀ b ∈ batch_insert_query 2 (fun n : Nat => n) [10, 20, 30], b.length ≤ 2) ∧
        ([10, 20, 30].length % 2 ≠ 0 →
          ∃ lb, (batch_insert_query 2 (fun n : Nat => n) [10, 20, 30]).getLast? = some lb ∧
            lb.length = [10, 20, 30].length % 2)) :=
  ⟨by decide, c9_batch_insert_splits 2 (by decide) (fun n => n) [10, 20, 30]⟩

/-- Boolean membership of a timestamp among a list of grid points. -/
def memB (t : Nat) (L : List Nat) : Bool := L.any (fun g => t == g)

/-- Unfolding `memB` on nil. -/
theorem memB_nil (t : Nat) : memB t [] = false := rfl

/-- Unfolding `memB` on cons. -/
theorem memB_cons (t g : Nat) (L : List Nat) : memB t (g :: L) = (t == g || memB t L) := rfl

/-- `memB` decides list membership. -/
theorem memB_eq_true_iff (t : Nat) (L : List Nat) : memB t L = true ↔ t ∈ L := by
  unfold memB
  rw [List.any_eq_true]
  constructor
  · rintro ⟨x, hx, hbeq⟩
    rw [beq_iff_eq] at hbeq
    rw [hbeq]
    exact hx
  · intro ht
    exact ⟨t, ht, by simp⟩

/-- The running minimum never exceeds its initial value. -/
theorem foldl_min_le_init (l : List Reading) :
    ∀ a : Nat, l.foldl (fun b x => min b x.ts) a ≤ a := by
  induction l with
  | nil => intro a; simp
  | cons x l ih =>
    intro a
    exact (ih (min a x.ts)).trans (Nat.min_le_left _ _)

/-- The running minimum is below every member's timestamp. -/
theorem foldl_min_le (l : List Reading) :
    ∀ (a : Nat) (x : Reading), x ∈ l → l.foldl (fun b y => min b y.ts) a ≤ x.ts := by
  induction l with
  | nil => intro a x hx; cases hx
  | cons y l ih =>
    intro a x hx
    rcases List.mem_cons.mp hx with rfl | hx
    · exact (foldl_min_le_init l _).trans (Nat.min_le_right _ _)
    · exact ih _ x hx

/-- `minTs` bounds every member's timestamp from below. -/
theorem minTs_le (rs : List Reading) (x : Reading) (hx : x ∈ rs) : minTs rs ≤ x.ts := by
  cases rs with
  | nil => cases hx
  | cons r rest =>
    unfold minTs
    rcases List.mem_cons.mp hx with rfl | hx
    · exact foldl_min_le_init rest x.ts
    · exact foldl_min_le rest r.ts x hx

/-- The running maximum never drops below its initial value. -/
theorem le_foldl_max_init (l : List Reading) :
    ∀ a : Nat, a ≤ l.foldl (fun b x => max b x.ts) a := by
  induction l with
  | nil => intro a; simp
  | cons x l ih =>
    intro a
    exact (Nat.le_max_left _ _).trans (ih (max a x.ts))

/-- The running maximum is above every member's timestamp. -/
theorem le_foldl_max (l : List Reading) :
    ∀ (a : Nat) (x : Reading), x ∈ l → x.ts ≤ l.foldl (fun b y => max b y.ts) a := by
  induction l with
  | nil => intro a x hx; cases hx
  | cons y l ih =>
    intro a x hx
    rcases List.mem_cons.mp hx with rfl | hx
    · exact (Nat.le_max_right _ _).trans (le_foldl_max_init l _)
    · exact ih _ x hx

/-- `maxTs` bounds every member's timestamp from above. -/
theorem le_maxTs (rs : List Reading) (x : Reading) (hx : x ∈ rs) : x.ts ≤ maxTs rs := by
  cases rs with
  | nil => cases hx
  | cons r rest =>
    unfold maxTs
    rcases List.mem_cons.mp hx with rfl | hx
    · exact le_foldl_max_init rest x.ts
    · exact le_foldl_max rest r.ts x hx

/-- The running maximum is its initial value or some member's timestamp. -/
theorem foldl_max_attained (l : List Reading) :
    ∀ a : Nat, l.foldl (fun b x => max b x.ts) a = a ∨
      ∃ x ∈ l, l.foldl (fun b x => max b x.ts) a = x.ts := by
  induction l with
  | nil => intro a; left; rfl
  | cons y l ih =>
    intro a
    simp only [List.foldl_cons]
    rcases ih (max a y.ts) with h | ⟨x, hx, h⟩
    · rcases max_choice a y.ts with hm | hm
      · left; rw [h, hm]
      · right; exact ⟨y, List.mem_cons_self y l, by rw [h, hm]⟩
    · right; exact ⟨x, List.mem_cons_of_mem _ hx, h⟩

/-- On a non-empty window the maximum timestamp is attained. -/
theorem maxTs_attained (rs : List Reading) (h : rs ≠ []) : ∃ x ∈ rs, x.ts = maxTs rs := by
  cases rs with
  | nil => exact absurd rfl h
  | cons r rest =>
    unfold maxTs
    rcases foldl_max_attained rest r.ts with h1 | ⟨x, hx, h1⟩
    · exact ⟨r, List.mem_cons_self r rest, h1.symm⟩
    · exact ⟨x, List.mem_cons_of_mem _ hx, h1.symm⟩

/-- With pairwise-distinct timestamps, filtering for one timestamp yields
exactly the `find?` result. -/
theorem find?_toList_eq_filter (g : Nat) :
    ∀ rs : List Reading, (rs.map (fun x => x.ts)).Nodup →
      rs.filter (fun x => x.ts == g) = (rs.find? (fun x => x.ts == g)).toList := by
  intro rs
  induction rs with
  | nil => intro _; rfl
  | cons x l ih =>
    intro hnd
    simp only [List.map_cons, List.nodup_cons] at hnd
    obtain ⟨hx, hl⟩ := hnd
    by_cases hxg : (x.ts == g) = true
    · have e1 : List.filter (fun y => y.ts == g) (x :: l) =
          x :: List.filter (fun y => y.ts == g) l := List.filter_cons_of_pos hxg
      have e2 : List.find? (fun y => y.ts == g) (x :: l) = some x :=
        List.find?_cons_of_pos _ hxg
      rw [e1, e2, Option.toList_some]
      have hnil : l.filter (fun y => y.ts == g) = [] := by
        rw [List.filter_eq_nil_iff]
        intro y hy hbeq
        rw [beq_iff_eq] at hxg hbeq
        exact hx (List.mem_map.mpr ⟨y, hy, by rw [hbeq, hxg]⟩)
      rw [hnil]
    · have e1 : List.filter (fun y => y.ts == g) (x :: l) =
          List.filter (fun y => y.ts == g) l := List.filter_cons_of_neg hxg
      have e2 : List.find? (fun y => y.ts == g) (x :: l) =
          List.find? (fun y => y.ts == g) l := List.find?_cons_of_neg _ hxg
      rw [e1, e2]
      exact ih hl

/-- Filtering a disjunction of disjoint predicates splits, up to
permutation, into the two filters in sequence. -/
theorem filter_or_perm (p q : Reading → Bool) :
    ∀ rs : List Reading, (∀ x ∈ rs, ¬(p x = true ∧ q x = true)) →
      (rs.filter (fun x => p x || q x)).Perm (rs.filter p ++ rs.filter q) := by
  intro rs
  induction rs with
  | nil => intro _; simp
  | cons x l ih =>
    intro hdisj
    have hd := hdisj x (List.mem_cons_self x l)
    have ih' := ih (fun y hy => hdisj y (List.mem_cons_of_mem x hy))
    by_cases hp : p x = true
    · have hq : ¬q x = true := fun hqv => hd ⟨hp, hqv⟩
      have e0 : List.filter (fun y => p y || q y) (x :: l) =
          x :: List.filter (fun y => p y || q y) l :=
        List.filter_cons_of_pos (by rw [hp]; rfl)
      have e1 : List.filter p (x :: l) = x :: List.filter p l := List.filter_cons_of_pos hp
      have e2 : List.filter q (x :: l) = List.filter q l := List.filter_cons_of_neg hq
      rw [e0, e1, e2, List.cons_append]
      exact ih'.cons x
    · by_cases hq : q x = true
      · have e0 : List.filter (fun y => p y || q y) (x :: l) =
            x :: List.filter (fun y => p y || q y) l :=
          List.filter_cons_of_pos (by rw [hq, Bool.or_true])
        have e1 : List.filter p (x :: l) = List.filter p l := List.filter_cons_of_neg hp
        have e2 : List.filter q (x :: l) = x :: List.filter q l := List.filter_cons_of_pos hq
        rw [e0, e1, e2]
        exact (ih'.cons x).trans List.perm_middle.symm
      · have e0 : List.filter (fun y => p y || q y) (x :: l) =
            List.filter (fun y => p y || q y) l :=
          List.filter_cons_of_neg (by
            simp only [Bool.or_eq_true]
            rintro (h | h)
            · exact hp h
            · exact hq h)
        have e1 : List.filter p (x :: l) = List.filter p l := List.filter_cons_of_neg hp
        have e2 : List.filter q (x :: l) = List.filter q l := List.filter_cons_of_neg hq
        rw [e0, e1, e2]
        exact ih'

/-- Looking up each grid point of `L` in a window with pairwise-distinct
timestamps collects, up to permutation, the values of the readings whose
timestamp lies in `L`. -/
theorem filterMap_lookup_perm (rs : List Reading) (hnd : (rs.map (fun x => x.ts)).Nodup) :
    ∀ L : List Nat, L.Nodup →
      (L.filterMap (fun g => (rs.find? (fun x => x.ts == g)).map (fun x => x.val))).Perm
        ((rs.filter (fun x => memB x.ts L)).map (fun x => x.val)) := by
  intro L
  induction L with
  | nil =>
    intro _
    have hnil : rs.filter (fun x => memB x.ts []) = [] := by
      rw [List.filter_eq_nil_iff]
      intro y hy h
      rw [memB_nil] at h
      cases h
    simp [hnil]
  | cons g L ihL =>
    intro hnodup
    rw [List.nodup_cons] at hnodup
    obtain ⟨hgL, hL⟩ := hnodup
    have hdisj : ∀ x ∈ rs, ¬((x.ts == g) = true ∧ memB x.ts L = true) := by
      rintro x hx ⟨h1, h2⟩
      rw [beq_iff_eq] at h1
      rw [memB_eq_true_iff] at h2
      exact hgL (h1 ▸ h2)
    have hsplit := filter_or_perm (fun x => x.ts == g) (fun x => memB x.ts L) rs hdisj
    have hpred : rs.filter (fun x => memB x.ts (g :: L)) =
        rs.filter (fun x => (x.ts == g) || memB x.ts L) :=
      List.filter_congr (fun x _ => memB_cons x.ts g L)
    rw [List.filterMap_cons, hpred]
    have hfilter_p := find?_toList_eq_filter g rs hnd
    cases hfind : rs.find? (fun x => x.ts == g) with
    | none =>
      have hpnil : rs.filter (fun x => x.ts == g) = [] := by
        rw [hfilter_p, hfind]
        rfl
      simp only [hfind, Option.map_none']
      refine (ihL hL).trans ?_
      have hmapped := (hsplit.map (fun y => y.val)).symm
      rw [hpnil] at hmapped
      simpa using hmapped
    | some x =>
      have hpx : rs.filter (fun y => y.ts == g) = [x] := by
        rw [hfilter_p, hfind]
        rfl
      simp only [hfind, Option.map_some']
      have hmapped := (hsplit.map (fun y => y.val)).symm
      rw [hpx] at hmapped
      refine ((ihL hL).cons x.val).trans ?_
      simpa using hmapped

/-- Every reading of a grid-aligned window sits on one of the resampler's
grid points. -/
theorem reading_mem_grid (r : Reading) (rest : List Reading)
    (hgrid : ∀ x ∈ r :: rest, (x.ts - minTs (r :: rest)) % 500 = 0) :
    ∀ x ∈ r :: rest,
      x.ts ∈ (List.range ((maxTs (r :: rest) - minTs (r :: rest)) / 500 + 1)).map
        (fun k => minTs (r :: rest) + 500 * k) := by
  intro x hx
  have h1 : minTs (r :: rest) ≤ x.ts := minTs_le _ x hx
  have h2 : x.ts ≤ maxTs (r :: rest) := le_maxTs _ x hx
  have hd : 500 ∣ (x.ts - minTs (r :: rest)) := Nat.dvd_of_mod_eq_zero (hgrid x hx)
  refine List.mem_map.mpr ⟨(x.ts - minTs (r :: rest)) / 500, ?_, ?_⟩
  · rw [List.mem_range]
    exact Nat.lt_succ_of_le (Nat.div_le_div_right (Nat.sub_le_sub_right h2 _))
  · rw [Nat.mul_div_cancel' hd, Nat.add_sub_cancel' h1]

/-- On a grid-aligned window the last grid point is the maximum observed
timestamp. -/
theorem last_grid_eq_max (r : Reading) (rest : List Reading)
    (hgrid : ∀ x ∈ r :: rest, (x.ts - minTs (r :: rest)) % 500 = 0) :
    minTs (r :: rest) + 500 * ((maxTs (r :: rest) - minTs (r :: rest)) / 500) =
      maxTs (r :: rest) := by
  obtain ⟨x, hx, hxts⟩ := maxTs_attained (r :: rest) (by simp)
  have h1 : minTs (r :: rest) ≤ maxTs (r :: rest) :=
    (minTs_le _ r (List.mem_cons_self r rest)).trans (le_maxTs _ r (List.mem_cons_self r rest))
  have hd : 500 ∣ (maxTs (r :: rest) - minTs (r :: rest)) := by
    rw [← hxts]
    exact Nat.dvd_of_mod_eq_zero (hgrid x hx)
  rw [Nat.mul_div_cancel' hd, Nat.add_sub_cancel' h1]

/-- The resampler's grid points are pairwise distinct. -/
theorem grid_nodup (t0 K : Nat) :
    ((List.range (K + 1)).map (fun k => t0 + 500 * k)).Nodup :=
  List.Nodup.map (fun a b hab => by omega) (List.nodup_range _)

/-- A guarded mean respects permutation of its inputs, including the
emptiness test. -/
theorem mean_if_congr {a b : List ℚ} (hperm : a.Perm b) :
    (if a.isEmpty then (none : Option ℚ) else some (listMean a)) =
      (if b.isEmpty then none else some (listMean b)) := by
  have hlen := hperm.length_eq
  have he : a.isEmpty = b.isEmpty := by
    rw [Bool.eq_iff_iff, List.isEmpty_iff, List.isEmpty_iff, ← List.length_eq_zero,
      ← List.length_eq_zero, hlen]
  have hm : listMean a = listMean b := by
    unfold listMean
    rw [hperm.sum_eq, hlen]
  rw [he, hm]

/-- For each output second, the grid cells the resampler collects are a
permutation of the window's readings in that second (distinct timestamps,
grid-aligned window). -/
theorem resample_vals_perm (r : Reading) (rest : List Reading)
    (hnd : ((r :: rest).map (fun x => x.ts)).Nodup)
    (hgrid : ∀ x ∈ r :: rest, (x.ts - minTs (r :: rest)) % 500 = 0) (s : Nat) :
    List.Perm
      (((((List.range ((maxTs (r :: rest) - minTs (r :: rest)) / 500 + 1)).map
          (fun k => minTs (r :: rest) + 500 * k)).map
        (fun g => (g, (((r :: rest).find? (fun x => x.ts == g)).map (fun x => x.val))))).filter
        (fun q => q.1 / 1000 == s)).filterMap (fun q => q.2))
      (((r :: rest).filter (fun x => x.ts / 1000 == s)).map (fun x => x.val)) := by
  rw [List.filter_map, List.filterMap_map]
  have hGnodup :
      (((List.range ((maxTs (r :: rest) - minTs (r :: rest)) / 500 + 1)).map
        (fun k => minTs (r :: rest) + 500 * k)).filter
        ((fun q : Nat × Option ℚ => q.1 / 1000 == s) ∘
          (fun g => (g, (((r :: rest).find? (fun x => x.ts == g)).map
            (fun x => x.val)))))).Nodup :=
    List.Nodup.filter _ (grid_nodup _ _)
  have hperm1 := filterMap_lookup_perm (r :: rest) hnd _ hGnodup
  have hfc : (r :: rest).filter
      (fun x => memB x.ts
        (((List.range ((maxTs (r :: rest) - minTs (r :: rest)) / 500 + 1)).map
          (fun k => minTs (r :: rest) + 500 * k)).filter
          ((fun q : Nat × Option ℚ => q.1 / 1000 == s) ∘
            (fun g => (g, (((r :: rest).find? (fun x => x.ts == g)).map
              (fun x => x.val))))))) =
      (r :: rest).filter (fun x => x.ts / 1000 == s) := by
    apply List.filter_congr
    intro x hx
    rw [Bool.eq_iff_iff, memB_eq_true_iff, List.mem_filter]
    constructor
    · rintro ⟨_, h2⟩
      exact h2
    · intro h2
      exact ⟨reading_mem_grid r rest hgrid x hx, h2⟩
  rw [hfc] at hperm1
  exact hperm1

/-- C7 (counterexample): readings at 0 ms (value 10) and 300 ms (value 20)
form a flush window whose second 0 should, per the claim, hold the mean 15 of
both readings; but the reading at 300 ms is not on the 500 ms grid anchored
at the minimum observed timestamp, the reindex drops it, and the resampled
output holds 10. -/
theorem c7_offgrid_reading_dropped_cex :
    save_to_csv_resample [⟨0, 10⟩, ⟨300, 20⟩] = [(0, some 10)] ∧
    secondMean [⟨0, 10⟩, ⟨300, 20⟩] 0 = some 15 ∧
    (some (10 : ℚ) ≠ some (15 : ℚ)) := by
  refine ⟨?_, ?_, by norm_num⟩
  · norm_num [save_to_csv_resample, minTs, maxTs, listMean, List.range_succ,
      List.filterMap_cons]
    simp
  · norm_num [secondMean, listMean]

/-- C7 (amended): for every non-empty flush window whose readings have
pairwise-distinct timestamps all lying on the 500 ms grid anchored at the
minimum observed timestamp (as the sampler's fixed 500 ms cadence produces),
the resampled output has exactly one row per whole second from the minimum to
the maximum observed timestamp — a contiguous, strictly increasing,
one-second-spaced sequence with no duplicates and no gaps — and each second's
value is the mean of the readings falling in that second, null exactly when
there is none. -/
theorem c7_resample_grid_characterization (rs : List Reading) (hne : rs ≠ [])
    (hnd : (rs.map (fun x => x.ts)).Nodup)
    (hgrid : ∀ x ∈ rs, (x.ts - minTs rs) % 500 = 0) :
    (save_to_csv_resample rs).map Prod.fst =
      (List.range (maxTs rs / 1000 - minTs rs / 1000 + 1)).map
        (fun j => minTs rs / 1000 + j) ∧
    ∀ p ∈ save_to_csv_resample rs, p.2 = secondMean rs p.1 := by
  obtain ⟨r, rest, rfl⟩ : ∃ r rest, rs = r :: rest := by
    cases rs with
    | nil => exact absurd rfl hne
    | cons a b => exact ⟨a, b, rfl⟩
  have hs1 := last_grid_eq_max r rest hgrid
  constructor
  · simp only [save_to_csv_resample, List.map_map]
    rw [hs1]
    rfl
  · intro p hp
    simp only [save_to_csv_resample] at hp
    rw [List.mem_map] at hp
    obtain ⟨j, hj, rfl⟩ := hp
    dsimp only
    have hperm := resample_vals_perm r rest hnd hgrid (minTs (r :: rest) / 1000 + j)
    simp only [secondMean]
    exact mean_if_congr hperm

/-- Witness for C7 on the grid-aligned window with readings at 0 ms, 500 ms
and 1500 ms. -/
theorem c7_resample_grid_characterization_witness :
    ([⟨0, 10⟩, ⟨500, 20⟩, ⟨1500, 30⟩] : List Reading) ≠ [] ∧
      (([⟨0, 10⟩, ⟨500, 20⟩, ⟨1500, 30⟩] : List Reading).map (fun x => x.ts)).Nodup ∧
      (∀ x ∈ ([⟨0, 10⟩, ⟨500, 20⟩, ⟨1500, 30⟩] : List Reading),
        (x.ts - minTs [⟨0, 10⟩, ⟨500, 20⟩, ⟨1500, 30⟩]) % 500 = 0) ∧
      ((save_to_csv_resample [⟨0, 10⟩, ⟨500, 20⟩, ⟨1500, 30⟩]).map Prod.fst =
          (List.range (maxTs [⟨0, 10⟩, ⟨500, 20⟩, ⟨1500, 30⟩] / 1000 -
              minTs [⟨0, 10⟩, ⟨500, 20⟩, ⟨1500, 30⟩] / 1000 + 1)).map
            (fun j => minTs [⟨0, 10⟩, ⟨500, 20⟩, ⟨1500, 30⟩] / 1000 + j) ∧
        ∀ p ∈ save_to_csv_resample [⟨0, 10⟩, ⟨500, 20⟩, ⟨1500, 30⟩],
          p.2 = secondMean [⟨0, 10⟩, ⟨500, 20⟩, ⟨1500, 30⟩] p.1) :=
  ⟨by decide, by decide, by decide,
    c7_resample_grid_characterization [⟨0, 10⟩, ⟨500, 20⟩, ⟨1500, 30⟩] (by decide) (by decide)
      (by decide)⟩

